import Mathlib

/-!
Shallow embedding of the business-profile subsystem of the repository:
the validation schemas (src/lib/validations/business.ts), the profile
route handlers GET and POST (src/app/api/business/profile/route.ts),
the onboarding server actions (src/app/(dashboard)/onboarding/actions.ts),
and the `business_profiles` table as declared in the Drizzle schema
(`businessProfiles`, schema lines 133-146) and in the migration
src/lib/db/migrations/0001_marvelous_harpoon.sql.

Machine integers do not occur in this flow; identifiers and timestamps are
modelled as `Nat`, strings as Lean `String` (the inputs of interest are
ASCII, where JavaScript's UTF-16 `length` agrees with `String.length`).
-/

namespace Revvio

/-! ### Characters and list utilities -/

/-- ASCII digit, `[0-9]` in the source regexes. -/
def isDigitC (c : Char) : Bool := 48 ≤ c.toNat && c.toNat ≤ 57

/-- ASCII letter, `[A-Za-z]` in the source regexes. -/
def isAlphaC (c : Char) : Bool :=
  (65 ≤ c.toNat && c.toNat ≤ 90) || (97 ≤ c.toNat && c.toNat ≤ 122)

/-- ASCII letter or digit. -/
def isAlnumC (c : Char) : Bool := isAlphaC c || isDigitC c

/-- Code points matched by JavaScript's `\s` character class. -/
def jsWhitespaceCodes : List Nat :=
  [9, 10, 11, 12, 13, 32, 160, 5760, 8192, 8193, 8194, 8195, 8196, 8197,
   8198, 8199, 8200, 8201, 8202, 8232, 8233, 8239, 8287, 12288, 65279]

/-- JavaScript `\s` whitespace. -/
def jsWhitespace (c : Char) : Bool := jsWhitespaceCodes.contains c.toNat

/-- The separator class `[-\s\.]` of the source phone regex. -/
def isSep (c : Char) : Bool := c == '-' || jsWhitespace c || c == '.'

/-- Boolean list-prefix test. -/
def isPrefixB : List Char → List Char → Bool
  | [], _ => true
  | _ :: _, [] => false
  | a :: as, b :: bs => a == b && isPrefixB as bs

/-- Boolean list-infix test. -/
def isInfixB (p : List Char) : List Char → Bool
  | [] => isPrefixB p []
  | l@(_ :: rest) => isPrefixB p l || isInfixB p rest

/-- Substring containment, modelling JavaScript `String.prototype.includes`. -/
def containsSub (s pat : String) : Bool := isInfixB pat.data s.data

/-! ### The phone regex (src/lib/validations/business.ts line 4)

`/^[\+]?[(]?[0-9]{3}[)]?[-\s\.]?[0-9]{3}[-\s\.]?[0-9]{4,6}$/`

Every optional element's character class is disjoint from the class of
the element that follows it, so the regex is deterministic and is
translated into a left-to-right consumer. -/

/-- Consume one leading character satisfying `p` if present (`X?` for a
single-character class `X` whose successor class is disjoint). -/
def dropOpt (p : Char → Bool) : List Char → List Char
  | [] => []
  | c :: cs => if p c then cs else c :: cs

/-- Consume exactly `n` leading digits (`[0-9]{n}`), returning the rest. -/
def takeDigitsD : Nat → List Char → Option (List Char)
  | 0, cs => some cs
  | _ + 1, [] => none
  | n + 1, c :: cs => if isDigitC c then takeDigitsD n cs else none

/-- Stage `[-\s\.]?[0-9]{4,6}$` of the regex. -/
def phoneStage3 (l : List Char) : Bool :=
  let l' := dropOpt isSep l
  l'.all isDigitC && decide (4 ≤ l'.length) && decide (l'.length ≤ 6)

/-- Stage `[-\s\.]?[0-9]{3}` of the regex, then `phoneStage3`. -/
def phoneStage2 (l : List Char) : Bool :=
  match takeDigitsD 3 (dropOpt isSep l) with
  | none => false
  | some l' => phoneStage3 l'

/-- Stage `[)]?` of the regex, then `phoneStage2`. -/
def phoneStage1 (l : List Char) : Bool :=
  phoneStage2 (dropOpt (· == ')') l)

/-- Stage `^[\+]?[(]?[0-9]{3}` of the regex, then `phoneStage1`. -/
def phoneStage0 (l : List Char) : Bool :=
  match takeDigitsD 3 (dropOpt (· == '(') (dropOpt (· == '+') l)) with
  | none => false
  | some l' => phoneStage1 l'

/-- Matcher for the source phone regex. -/
def phoneRegexMatch (s : String) : Bool := phoneStage0 s.data

/-! ### Email validity (zod `.email()`)

Modelled from zod's email regex
`/^(?!\.)(?!.*\.\.)([A-Za-z0-9_'+\-\.]*)[A-Za-z0-9_+-]@([A-Za-z0-9][A-Za-z0-9\-]*\.)+[A-Za-z]{2,}$/`:
exactly one `@`; the string does not start with a dot and contains no two
consecutive dots; a nonempty local part over the local alphabet whose last
character is not a dot or apostrophe; a domain of one or more labels
(alphanumeric head, alphanumeric-or-dash tail) followed by an alphabetic
top-level label of length at least two. -/

/-- Characters allowed in the local part of an email address. -/
def emailLocalChar (c : Char) : Bool :=
  isAlnumC c || c == '_' || c == '+' || c == '-' || c.toNat == 39 || c == '.'

/-- Characters allowed as the last character of the local part. -/
def emailLocalLast (c : Char) : Bool :=
  isAlnumC c || c == '_' || c == '+' || c == '-'

/-- Split a character list on dots. -/
def splitDots : List Char → List (List Char)
  | [] => [[]]
  | c :: cs =>
    if c == '.' then [] :: splitDots cs
    else
      match splitDots cs with
      | [] => [[c]]
      | g :: gs => (c :: g) :: gs

/-- A non-final domain label: `[A-Za-z0-9][A-Za-z0-9\-]*`. -/
def domainLabelOk : List Char → Bool
  | [] => false
  | c :: cs => isAlnumC c && cs.all (fun d => isAlnumC d || d == '-')

/-- The final domain label: `[A-Za-z]{2,}`. -/
def tldOk (l : List Char) : Bool := decide (2 ≤ l.length) && l.all isAlphaC

/-- The local part: one or more local characters, the last one restricted. -/
def localOk (l : List Char) : Bool :=
  match l.getLast? with
  | none => false
  | some c => emailLocalLast c && l.dropLast.all emailLocalChar

/-- The domain part: one or more labels, then a dot, then the TLD. -/
def domainOk (d : List Char) : Bool :=
  let parts := splitDots d
  match parts.getLast? with
  | none => false
  | some lastPart =>
    decide (2 ≤ parts.length) && tldOk lastPart && parts.dropLast.all domainLabelOk

/-- Email validity as checked by zod's `.email()`. -/
def emailValid (s : String) : Bool :=
  let cs := s.data
  cs.count '@' == 1 &&
  !(cs.head? == some '.') &&
  !(isInfixB ['.', '.'] cs) &&
  localOk (cs.takeWhile (· != '@')) &&
  domainOk ((cs.dropWhile (· != '@')).tail)

/-! ### URL validity (zod `.url()`)

zod's `.url()` succeeds exactly when the WHATWG constructor `new URL(s)`
does.  This model covers the fragment of URL syntax exercised here: a
scheme `[A-Za-z][A-Za-z0-9+.\-]*` followed by `:`; for the special
schemes http, https, ws, wss and ftp a `//` and a nonempty host must
follow.  In particular the empty string and strings without a colon are
invalid. -/

/-- Characters allowed after the first character of a URL scheme. -/
def schemeChar (c : Char) : Bool := isAlnumC c || c == '+' || c == '-' || c == '.'

/-- Lower-case an ASCII letter. -/
def toLowerC (c : Char) : Char :=
  if 65 ≤ c.toNat && c.toNat ≤ 90 then Char.ofNat (c.toNat + 32) else c

/-- WHATWG special schemes that require an authority. -/
def specialScheme (sch : List Char) : Bool :=
  [('h' :: 't' :: 't' :: 'p' :: []),
   ('h' :: 't' :: 't' :: 'p' :: 's' :: []),
   ('w' :: 's' :: []),
   ('w' :: 's' :: 's' :: []),
   ('f' :: 't' :: 'p' :: [])].contains (sch.map toLowerC)

/-- Nonempty host portion after `//`. -/
def hostNonempty (l : List Char) : Bool :=
  match l.takeWhile (fun c => !(c == '/' || c == '?' || c == '#')) with
  | [] => false
  | _ :: _ => true

/-- URL validity as checked by zod's `.url()` (`new URL` succeeding). -/
def urlValid (s : String) : Bool :=
  let cs := s.data
  let sch := cs.takeWhile (· != ':')
  match cs.dropWhile (· != ':') with
  | [] => false
  | _ :: afterColon =>
    (match sch with
     | [] => false
     | c :: rest => isAlphaC c && rest.all schemeChar) &&
    (if specialScheme sch then
       match afterColon with
       | '/' :: '/' :: hostRest => hostNonempty hostRest
       | _ => false
     else true)

/-! ### The validation schema (src/lib/validations/business.ts)

`onboardingSchema = businessInfoSchema.merge(reviewLinksSchema)`.
A request body is modelled at the typed shape the schema checks; zod
type-level failures (missing or non-string fields) are outside this
model.  Each field's checks run in order and all failures are collected;
the route formats each issue as `path: message`. -/

structure Body where
  businessName : String
  phone : String
  email : String
  googleReviewUrl : String
  facebookReviewUrl : Option String
  yelpReviewUrl : Option String
deriving DecidableEq, Repr

/-- Issues of `businessName`: `.min(2).max(255)`. -/
def businessNameIssues (s : String) : List String :=
  (if s.length < 2 then ["businessName: Business name must be at least 2 characters"] else []) ++
  (if 255 < s.length then ["businessName: Business name must be less than 255 characters"] else [])

/-- Issues of `phone`: `.min(1).regex(phoneRegex)`. -/
def phoneIssues (s : String) : List String :=
  (if s.length < 1 then ["phone: Phone number is required"] else []) ++
  (if phoneRegexMatch s then [] else ["phone: Please enter a valid phone number"])

/-- Issues of `email`: `.min(1).email().max(255)`. -/
def emailIssues (s : String) : List String :=
  (if s.length < 1 then ["email: Email is required"] else []) ++
  (if emailValid s then [] else ["email: Please enter a valid email address"]) ++
  (if 255 < s.length then ["email: Email must be less than 255 characters"] else [])

/-- Issues of `googleReviewUrl`: `.min(1).url()`. -/
def googleUrlIssues (s : String) : List String :=
  (if s.length < 1 then ["googleReviewUrl: Google Review link is required"] else []) ++
  (if urlValid s then [] else ["googleReviewUrl: Please enter a valid URL"])

/-- Issues of an optional review URL: `.url().optional().or(z.literal(''))`,
a union whose first branch accepts an absent field or a valid URL and whose
second branch accepts the empty string; when both branches fail zod reports
one `invalid_union` issue with message `Invalid input`. -/
def optUrlIssues (field : String) : Option String → List String
  | none => []
  | some s => if urlValid s || s == "" then [] else [field ++ ": Invalid input"]

/-- All issues of a body under `onboardingSchema`, in field order, formatted
as the POST handler formats them (route.ts lines 80-82). -/
def validateBody (b : Body) : List String :=
  businessNameIssues b.businessName ++ phoneIssues b.phone ++ emailIssues b.email ++
  googleUrlIssues b.googleReviewUrl ++
  optUrlIssues "facebookReviewUrl" b.facebookReviewUrl ++
  optUrlIssues "yelpReviewUrl" b.yelpReviewUrl

/-! ### The business_profiles table and store

Row shape per the Drizzle declaration `businessProfiles` (schema lines
133-146) and migration 0001: columns id, user_id, business_name,
google_review_url, facebook_review_url, yelp_review_url, phone, email,
created_at, updated_at.  The table declares NO onboarding_completed
column and NO uniqueness constraint on user_id (only the foreign key to
users.id).  Timestamps are Nats; `id` is the serial primary key. -/

structure Row where
  id : Nat
  userId : Nat
  businessName : String
  googleReviewUrl : Option String
  facebookReviewUrl : Option String
  yelpReviewUrl : Option String
  phone : Option String
  email : Option String
  createdAt : Nat
  updatedAt : Nat
deriving DecidableEq, Repr

/-- The relational store restricted to the business_profiles table: the rows
in insertion order and the next serial id. -/
structure Store where
  rows : List Row
  nextId : Nat
deriving DecidableEq, Repr

/-- An empty store whose serial counter starts at 1. -/
def emptyStore : Store := { rows := [], nextId := 1 }

/-- `select().from(businessProfiles).where(eq(userId, uid)).limit(1)`:
the first stored row referencing `uid`, if any. -/
def findProfile (uid : Nat) (st : Store) : Option Row :=
  st.rows.find? (fun r => r.userId == uid)

/-- JavaScript `x || null` applied to an optional string: an absent field or
the empty string becomes null, every other string is kept. -/
def normOpt : Option String → Option String
  | none => none
  | some s => if s == "" then none else some s

/-- The `profileData` object built by the POST handler (route.ts lines
106-115) from the validated body: it carries `onboardingCompleted := true`
and `updatedAt := now`. -/
structure ProfileData where
  userId : Nat
  businessName : String
  phone : String
  email : String
  googleReviewUrl : String
  facebookReviewUrl : Option String
  yelpReviewUrl : Option String
  onboardingCompleted : Bool
  updatedAt : Nat
deriving DecidableEq, Repr

/-- Build `profileData` from the validated body (route.ts lines 106-115). -/
def mkProfileData (uid : Nat) (b : Body) (now : Nat) : ProfileData :=
  { userId := uid
    businessName := b.businessName
    phone := b.phone
    email := b.email
    googleReviewUrl := b.googleReviewUrl
    facebookReviewUrl := normOpt b.facebookReviewUrl
    yelpReviewUrl := normOpt b.yelpReviewUrl
    onboardingCompleted := true
    updatedAt := now }

/-- Drizzle `insert(businessProfiles).values(profileData)`: the stored row is
built from the table's columns only, so the `onboardingCompleted` entry of
`profileData` is discarded (the table has no such column); `id` comes from
the serial counter and `createdAt` from the column default `now()`. -/
def insertRow (id createdAt : Nat) (pd : ProfileData) : Row :=
  { id := id
    userId := pd.userId
    businessName := pd.businessName
    googleReviewUrl := some pd.googleReviewUrl
    facebookReviewUrl := pd.facebookReviewUrl
    yelpReviewUrl := pd.yelpReviewUrl
    phone := some pd.phone
    email := some pd.email
    createdAt := createdAt
    updatedAt := pd.updatedAt }

/-- Drizzle `update(businessProfiles).set(profileData)` applied to one row:
every table column present in `profileData` is overwritten (again the
`onboardingCompleted` entry has no column and is discarded); `id` and
`createdAt` are not in `profileData` and are kept. -/
def applyUpdate (pd : ProfileData) (r : Row) : Row :=
  { r with
    userId := pd.userId
    businessName := pd.businessName
    googleReviewUrl := some pd.googleReviewUrl
    facebookReviewUrl := pd.facebookReviewUrl
    yelpReviewUrl := pd.yelpReviewUrl
    phone := some pd.phone
    email := some pd.email
    updatedAt := pd.updatedAt }

/-! ### The route handlers (src/app/api/business/profile/route.ts)

The session resolver `getUser` (lib/db/queries, not under src/) is the
spec's collaborator mapping a request to a user identifier or none; it is
passed in as `user : Option Nat`.  `now : Nat` stands for `new Date()`. -/

/-- HTTP-style JSON response of the two handlers. -/
structure Resp where
  status : Nat
  success : Bool
  error : Option String := none
  message : Option String := none
  data : Option Row := none
  details : Option (List String) := none
deriving DecidableEq, Repr

/-- Response of the 401 branch shared by both handlers. -/
def unauthorizedResp : Resp :=
  { status := 401, success := false, error := some "Unauthorized. Please sign in." }

/-- GET /api/business/profile (route.ts lines 12-48). -/
def getProfile (user : Option Nat) (st : Store) : Resp :=
  match user with
  | none => unauthorizedResp
  | some uid =>
    match findProfile uid st with
    | none => { status := 404, success := false, error := some "Business profile not found" }
    | some r => { status := 200, success := true, data := some r }

/-- POST /api/business/profile (route.ts lines 55-154).  `body?` is the
parsed JSON body, `none` when parsing threw; returns the response and the
store after the call. -/
def postProfile (user : Option Nat) (body? : Option Body) (now : Nat) (st : Store) :
    Resp × Store :=
  match user with
  | none => (unauthorizedResp, st)
  | some uid =>
    match body? with
    | none => ({ status := 400, success := false, error := some "Invalid JSON in request body" }, st)
    | some b =>
      let issues := validateBody b
      if issues.isEmpty then
        let pd := mkProfileData uid b now
        if (findProfile uid st).isSome then
          let rows' := st.rows.map (fun r => if r.userId == uid then applyUpdate pd r else r)
          let result := ((st.rows.filter (fun r => r.userId == uid)).map (applyUpdate pd)).head?
          ({ status := 200, success := true, data := result
             message := some "Business profile updated successfully" },
           { st with rows := rows' })
        else
          let row := insertRow st.nextId now pd
          ({ status := 201, success := true, data := some row
             message := some "Business profile created successfully" },
           { rows := st.rows ++ [row], nextId := st.nextId + 1 })
      else
        ({ status := 400, success := false, error := some "Validation failed"
           details := some issues }, st)

/-- Response of the POST catch-all 500 branch (route.ts lines 182-188). -/
def internalErrorResp : Resp :=
  { status := 500, success := false
    error := some "Internal server error while processing your request" }

/-- The POST handler's catch block (route.ts lines 155-190): a raised store
error is classified by substring match on its message; `none` stands for a
thrown value that is not an `Error` instance. -/
def classifyPostError : Option String → Resp
  | none => internalErrorResp
  | some msg =>
    if containsSub msg "unique constraint" then
      { status := 409, success := false
        error := some "A business profile already exists for this user" }
    else if containsSub msg "foreign key" then
      { status := 400, success := false, error := some "Invalid user reference" }
    else internalErrorResp

/-! ### The onboarding server actions (src/app/(dashboard)/onboarding/actions.ts)

Both actions are wrapped in `validatedActionWithUser` (lib/auth/middleware,
not under src/).  Modelled from the spec: the wrapper resolves the session
to a user and validates the form data against `onboardingSchema`, failing
without touching the store otherwise.  `getBusinessProfile` (lib/db/queries,
not under src/) is modelled from the spec's read path: fetch the single
profile row for the caller's user id. -/

/-- Result of a server action. -/
structure ActionState where
  success : Option String := none
  error : Option String := none
  profileId : Option Nat := none
deriving DecidableEq, Repr

/-- The row inserted by `createBusinessProfile` (actions.ts lines 14-28):
`newBusinessProfile` carries no `updatedAt`, so both timestamps take the
column default `now()`; its `onboardingCompleted` entry has no column and
is discarded. -/
def actionInsertRow (id now uid : Nat) (b : Body) : Row :=
  { id := id
    userId := uid
    businessName := b.businessName
    googleReviewUrl := some b.googleReviewUrl
    facebookReviewUrl := normOpt b.facebookReviewUrl
    yelpReviewUrl := normOpt b.yelpReviewUrl
    phone := some b.phone
    email := some b.email
    createdAt := now
    updatedAt := now }

/-- `createBusinessProfile` (actions.ts lines 10-47): after validation the
action inserts unconditionally — it performs no existence check. -/
def createAction (uid : Nat) (b : Body) (now : Nat) (st : Store) : ActionState × Store :=
  if (validateBody b).isEmpty then
    let row := actionInsertRow st.nextId now uid b
    ({ success := some "Business profile created successfully!", profileId := some row.id },
     { rows := st.rows ++ [row], nextId := st.nextId + 1 })
  else
    ({ error := some "Invalid input" }, st)

/-- The `set` object of `updateBusinessProfile` (actions.ts lines 63-73)
applied to one row: unlike the route's `profileData` it does not set
`userId`; its `onboardingCompleted` entry has no column and is discarded. -/
def applyActionUpdate (b : Body) (now : Nat) (r : Row) : Row :=
  { r with
    businessName := b.businessName
    googleReviewUrl := some b.googleReviewUrl
    facebookReviewUrl := normOpt b.facebookReviewUrl
    yelpReviewUrl := normOpt b.yelpReviewUrl
    phone := some b.phone
    email := some b.email
    updatedAt := now }

/-- `updateBusinessProfile` (actions.ts lines 49-93): fails if no profile
row exists for the caller, otherwise overwrites every row referencing the
caller's user id. -/
def updateAction (uid : Nat) (b : Body) (now : Nat) (st : Store) : ActionState × Store :=
  if (validateBody b).isEmpty then
    match findProfile uid st with
    | none => ({ error := some "Business profile not found." }, st)
    | some _ =>
      let rows' := st.rows.map (fun r => if r.userId == uid then applyActionUpdate b now r else r)
      let result := ((st.rows.filter (fun r => r.userId == uid)).map (applyActionUpdate b now)).head?
      match result with
      | none => ({ error := some "Failed to update business profile. Please try again." },
                 { st with rows := rows' })
      | some r => ({ success := some "Business profile updated successfully!", profileId := some r.id },
                   { st with rows := rows' })
  else
    ({ error := some "Invalid input" }, st)

/-! ### Shapes stated by the specification (for comparison with the code)

`claimPhoneShape` formalises the phone shape as the spec sentence
describes it — an optional leading plus, an optional parenthesized
three-digit area code, then three digits and four to six digits, with
optional separators (dash, space, or dot) between groups — reading the
area code as the first of the three digit groups.  `AmendedPhoneShape`
is the declarative shape actually decided by the source regex: each
parenthesis is independently optional and a separator is a dash, a dot,
or any JavaScript whitespace character. -/

/-- Separator as the spec sentence describes it: dash, space, or dot. -/
def claimSep (c : Char) : Bool := c == '-' || c == ' ' || c == '.'

/-- The phone shape described by the spec sentence. -/
def claimPhoneShape (s : String) : Bool :=
  let l1 := dropOpt (· == '+') s.data
  let step1 : Option (List Char) :=
    match l1 with
    | '(' :: rest =>
      match takeDigitsD 3 rest with
      | some (')' :: l2) => some l2
      | _ => none
    | _ => takeDigitsD 3 l1
  match step1 with
  | none => false
  | some l2 =>
    let l3 := dropOpt claimSep l2
    match takeDigitsD 3 l3 with
    | none => false
    | some l4 =>
      let l5 := dropOpt claimSep l4
      l5.all isDigitC && decide (4 ≤ l5.length) && decide (l5.length ≤ 6)

/-- An optional single-character element: absent or the given character. -/
def OptChar (l : List Char) (c : Char) : Prop := l = [] ∨ l = [c]

/-- An optional separator element of the source regex. -/
def OptSep (l : List Char) : Prop := l = [] ∨ ∃ c, l = [c] ∧ isSep c = true

/-- A group of exactly `n` digits. -/
def DigitGroup (l : List Char) (n : Nat) : Prop :=
  l.length = n ∧ l.all isDigitC = true

/-- The declarative shape decided by the source phone regex: an optional
leading plus, an optional opening parenthesis, three digits, an optional
closing parenthesis (each parenthesis independently optional), an optional
separator, three digits, an optional separator, and four to six digits,
where a separator is a dash, a dot, or any JavaScript whitespace. -/
def AmendedPhoneShape (s : String) : Prop :=
  ∃ plus lpar g1 rpar s1 g2 s2 g3 : List Char,
    s.data = plus ++ lpar ++ g1 ++ rpar ++ s1 ++ g2 ++ s2 ++ g3 ∧
    OptChar plus '+' ∧ OptChar lpar '(' ∧ DigitGroup g1 3 ∧ OptChar rpar ')' ∧
    OptSep s1 ∧ DigitGroup g2 3 ∧ OptSep s2 ∧
    4 ≤ g3.length ∧ g3.length ≤ 6 ∧ g3.all isDigitC = true

/-! ### Invariants and concrete inputs -/

/-- Each user owns at most one profile row: the stored rows have pairwise
distinct user ids. -/
def UniquePerUser (st : Store) : Prop :=
  st.rows.Pairwise (fun a b => a.userId ≠ b.userId)

/-- No stored row holds the empty string in an optional review-URL column. -/
def NoEmptyOptionalUrls (st : Store) : Prop :=
  ∀ r ∈ st.rows, r.facebookReviewUrl ≠ some "" ∧ r.yelpReviewUrl ≠ some ""

/-- A concrete body accepted by the validation schema. -/
def sampleBody : Body :=
  { businessName := "Acme Cleaning"
    phone := "555-123-4567"
    email := "owner@acme.com"
    googleReviewUrl := "https://g.page/acme/review"
    facebookReviewUrl := some ""
    yelpReviewUrl := none }

/-- A second accepted body, differing from `sampleBody` and omitting the
optional facebook URL. -/
def sampleBody2 : Body :=
  { sampleBody with businessName := "Acme Cleaning Co", facebookReviewUrl := none }

/-- Row content the specification promises after an update (written from the
spec's words, to be compared with the source's update): the caller's user id,
every submitted field, empty or omitted optional URLs stored as null, the
original id and creation time, and the update time set to now. -/
def specUpdatedRow (r0 : Row) (uid : Nat) (b : Body) (now : Nat) : Row :=
  { id := r0.id
    userId := uid
    businessName := b.businessName
    googleReviewUrl := some b.googleReviewUrl
    facebookReviewUrl := normOpt b.facebookReviewUrl
    yelpReviewUrl := normOpt b.yelpReviewUrl
    phone := some b.phone
    email := some b.email
    createdAt := r0.createdAt
    updatedAt := now }

/-! ## Theorems -/

/-- C1: a first POST for a user with no profile row does return 201 with
success, the creation message, and a row holding all submitted fields —
but the business_profiles table has no onboarding_completed column
(schema lines 133-146, migration 0001), so the `onboardingCompleted := true`
entry of the handler's `profileData` is discarded by the insert and the
persisted row carries no onboarding flag at all: the last conjunct shows
the stored row is the same whatever the flag's value.  This contradicts
the claim (and the repository's own client-side type declarations, which
include `onboardingCompleted : boolean` in the returned data). -/
theorem c1_onboarding_flag_discarded :
    (postProfile (some 1) (some sampleBody) 5 emptyStore).1.status = 201 ∧
    (postProfile (some 1) (some sampleBody) 5 emptyStore).1.success = true ∧
    (postProfile (some 1) (some sampleBody) 5 emptyStore).1.message =
      some "Business profile created successfully" ∧
    (postProfile (some 1) (some sampleBody) 5 emptyStore).1.data =
      some (insertRow 1 5 (mkProfileData 1 sampleBody 5)) ∧
    (postProfile (some 1) (some sampleBody) 5 emptyStore).2.rows =
      [insertRow 1 5 (mkProfileData 1 sampleBody 5)] ∧
    (∀ flag : Bool,
      insertRow 1 5 { mkProfileData 1 sampleBody 5 with onboardingCompleted := flag } =
        insertRow 1 5 (mkProfileData 1 sampleBody 5)) := by
  refine ⟨by decide, by decide, by decide, by decide, by decide, fun flag => rfl⟩

/-- C4: when the session resolves to no user, GET and POST both answer the
fixed 401 unauthorized response — for every store and body, so the store is
neither read nor written (GET's answer is a constant independent of the
store, POST returns the store unchanged). -/
theorem c4_unauthenticated_always_401 :
    ∀ (st : Store) (body? : Option Body) (now : Nat),
      getProfile none st = unauthorizedResp ∧
      unauthorizedResp.status = 401 ∧
      unauthorizedResp.success = false ∧
      postProfile none body? now st = (unauthorizedResp, st) :=
  fun _ _ _ => ⟨rfl, rfl, rfl, rfl⟩

/-- C7: the POST catch block classifies a raised store error by substring
match on its message: `unique constraint` maps to 409 with the conflict
message (so every uniqueness violation the store reports with that phrase
maps to 409), otherwise `foreign key` maps to 400 with the invalid-user
message, and everything else — including a thrown value that is not an
Error — maps to 500. -/
theorem c7_store_error_classification :
    ∀ msg : String,
      (containsSub msg "unique constraint" = true →
        classifyPostError (some msg) =
          { status := 409, success := false
            error := some "A business profile already exists for this user" }) ∧
      (containsSub msg "unique constraint" = false →
        containsSub msg "foreign key" = true →
        classifyPostError (some msg) =
          { status := 400, success := false, error := some "Invalid user reference" }) ∧
      (containsSub msg "unique constraint" = false →
        containsSub msg "foreign key" = false →
        classifyPostError (some msg) = internalErrorResp) ∧
      classifyPostError none = internalErrorResp ∧
      internalErrorResp.status = 500 := by
  intro msg
  refine ⟨fun h => by simp [classifyPostError, h],
    fun h1 h2 => by simp [classifyPostError, h1, h2],
    fun h1 h2 => by simp [classifyPostError, h1, h2], rfl, rfl⟩

/-- Witness for C7 at a concrete Postgres-style uniqueness-violation
message. -/
theorem c7_store_error_classification_witness :
    classifyPostError (some "duplicate key value violates unique constraint bp_user") =
      { status := 409, success := false
        error := some "A business profile already exists for this user" } :=
  (c7_store_error_classification
    "duplicate key value violates unique constraint bp_user").1 (by decide)

/-! ### Helper lemmas about the handlers and the store -/

theorem find?_eq_head?_filter {α : Type} (p : α → Bool) :
    ∀ l : List α, l.find? p = (l.filter p).head? := by
  intro l
  induction l with
  | nil => rfl
  | cons a l ih =>
    by_cases h : p a
    · rw [List.find?_cons_of_pos _ h, List.filter_cons, if_pos h, List.head?_cons]
    · rw [List.find?_cons_of_neg _ (by simpa using h), List.filter_cons, if_neg (by simpa using h), ih]

theorem find?_map_upsert (uid : Nat) (f : Row → Row) (hf : ∀ r, (f r).userId = uid) :
    ∀ l : List Row,
      (l.map fun r => if r.userId == uid then f r else r).find? (fun r => r.userId == uid) =
        ((l.filter fun r => r.userId == uid).map f).head? := by
  intro l
  induction l with
  | nil => rfl
  | cons a l ih =>
    by_cases h : (a.userId == uid) = true
    · rw [List.map_cons, if_pos h, List.find?_cons_of_pos _ (by simp [hf a]),
        List.filter_cons, if_pos h, List.map_cons, List.head?_cons]
    · rw [List.map_cons, if_neg h, List.find?_cons_of_neg _ (by simpa using h),
        List.filter_cons, if_neg (by simpa using h), ih]

theorem postProfile_invalid (uid now : Nat) (st : Store) (b : Body)
    (h : validateBody b ≠ []) :
    postProfile (some uid) (some b) now st =
      ({ status := 400, success := false, error := some "Validation failed"
         details := some (validateBody b) }, st) := by
  have hempty : (validateBody b).isEmpty = false := by
    cases hv : validateBody b with
    | nil => exact absurd hv h
    | cons x xs => rfl
  simp [postProfile, hempty]

theorem postProfile_create (uid now : Nat) (st : Store) (b : Body)
    (hv : validateBody b = []) (hf : findProfile uid st = none) :
    postProfile (some uid) (some b) now st =
      ({ status := 201, success := true
         data := some (insertRow st.nextId now (mkProfileData uid b now))
         message := some "Business profile created successfully" },
       { rows := st.rows ++ [insertRow st.nextId now (mkProfileData uid b now)]
         nextId := st.nextId + 1 }) := by
  simp [postProfile, hv, hf]

theorem postProfile_update (uid now : Nat) (st : Store) (b : Body)
    (hv : validateBody b = []) (hf : (findProfile uid st).isSome = true) :
    postProfile (some uid) (some b) now st =
      ({ status := 200, success := true
         data := ((st.rows.filter fun r => r.userId == uid).map
           (applyUpdate (mkProfileData uid b now))).head?
         message := some "Business profile updated successfully" },
       { st with rows := st.rows.map fun r =>
           if r.userId == uid then applyUpdate (mkProfileData uid b now) r else r }) := by
  simp [postProfile, hv, hf]

theorem getProfile_missing (uid : Nat) (st : Store) (h : findProfile uid st = none) :
    getProfile (some uid) st =
      { status := 404, success := false, error := some "Business profile not found" } := by
  simp [getProfile, h]

theorem getProfile_found (uid : Nat) (st : Store) (r : Row) (h : findProfile uid st = some r) :
    getProfile (some uid) st = { status := 200, success := true, data := some r } := by
  simp [getProfile, h]

/-! ### Lemmas about the phone matcher -/

theorem takeDigitsD_eq_some :
    ∀ (n : Nat) (l l' : List Char), takeDigitsD n l = some l' ↔
      ∃ g, l = g ++ l' ∧ g.length = n ∧ g.all isDigitC = true := by
  intro n
  induction n with
  | zero =>
    intro l l'
    constructor
    · intro h
      have hl : l = l' := by simpa [takeDigitsD] using h
      exact ⟨[], by simp [hl], rfl, rfl⟩
    · rintro ⟨g, hl, hg, -⟩
      have hg0 : g = [] := List.length_eq_zero.mp hg
      subst hg0
      simpa [takeDigitsD] using hl
  | succ n ih =>
    intro l l'
    constructor
    · intro h
      cases l with
      | nil => simp [takeDigitsD] at h
      | cons c cs =>
        by_cases hc : isDigitC c = true
        · rw [show takeDigitsD (n + 1) (c :: cs) = takeDigitsD n cs from by
            simp [takeDigitsD, hc]] at h
          obtain ⟨g, hcs, hlen, hall⟩ := (ih cs l').mp h
          exact ⟨c :: g, by simp [hcs], by simp [hlen], by simp [List.all_cons, hc, hall]⟩
        · simp [takeDigitsD, hc] at h
    · rintro ⟨g, hl, hg, hall⟩
      cases g with
      | nil => simp at hg
      | cons d g' =>
        subst hl
        have hd : isDigitC d = true := by
          have h := hall
          rw [List.all_cons, Bool.and_eq_true] at h
          exact h.1
        have hall' : g'.all isDigitC = true := by
          have h := hall
          rw [List.all_cons, Bool.and_eq_true] at h
          exact h.2
        have hg' : g'.length = n := by simpa using hg
        rw [List.cons_append]
        simp only [takeDigitsD, hd, if_true]
        exact (ih (g' ++ l') l').mpr ⟨g', rfl, hg', hall'⟩

theorem dropOpt_decomp (p : Char → Bool) (l : List Char) :
    ∃ pre, l = pre ++ dropOpt p l ∧ (pre = [] ∨ ∃ c, pre = [c] ∧ p c = true) := by
  cases l with
  | nil => exact ⟨[], rfl, Or.inl rfl⟩
  | cons c cs =>
    by_cases h : p c = true
    · exact ⟨[c], by simp [dropOpt, h], Or.inr ⟨c, rfl, h⟩⟩
    · exact ⟨[], by simp [dropOpt, h], Or.inl rfl⟩

theorem dropOpt_single (p : Char → Bool) (c : Char) (rest : List Char) (h : p c = true) :
    dropOpt p (c :: rest) = rest := by
  simp [dropOpt, h]

theorem dropOpt_skip (p : Char → Bool) (l : List Char)
    (h : ∀ c, l.head? = some c → p c = false) :
    dropOpt p l = l := by
  cases l with
  | nil => rfl
  | cons c cs => simp [dropOpt, h c rfl]

theorem dropOpt_pre (p : Char → Bool) (pre rest : List Char)
    (hpre : pre = [] ∨ ∃ c, pre = [c] ∧ p c = true)
    (hrest : ∀ c, rest.head? = some c → p c = false) :
    dropOpt p (pre ++ rest) = rest := by
  rcases hpre with rfl | ⟨c, rfl, hc⟩
  · simpa using dropOpt_skip p rest hrest
  · simpa using dropOpt_single p c rest hc

theorem digit_not_plus {c : Char} (h : isDigitC c = true) : (c == '+') = false := by
  rw [beq_eq_false_iff_ne]
  rintro rfl
  exact absurd h (by decide)

theorem digit_not_lpar {c : Char} (h : isDigitC c = true) : (c == '(') = false := by
  rw [beq_eq_false_iff_ne]
  rintro rfl
  exact absurd h (by decide)

theorem digit_not_rpar {c : Char} (h : isDigitC c = true) : (c == ')') = false := by
  rw [beq_eq_false_iff_ne]
  rintro rfl
  exact absurd h (by decide)

theorem digit_not_ws {c : Char} (h : isDigitC c = true) : jsWhitespace c = false := by
  have hn : 48 ≤ c.toNat ∧ c.toNat ≤ 57 := by
    simpa [isDigitC, Bool.and_eq_true, decide_eq_true_eq] using h
  rw [Bool.eq_false_iff]
  intro hw
  have hm : c.toNat ∈ jsWhitespaceCodes := by
    simpa [jsWhitespace] using hw
  simp [jsWhitespaceCodes] at hm
  omega

theorem digit_not_sep {c : Char} (h : isDigitC c = true) : isSep c = false := by
  have h1 : (c == '-') = false := by
    rw [beq_eq_false_iff_ne]; rintro rfl; exact absurd h (by decide)
  have h2 : (c == '.') = false := by
    rw [beq_eq_false_iff_ne]; rintro rfl; exact absurd h (by decide)
  simp [isSep, h1, h2, digit_not_ws h]

theorem sep_not_rpar {c : Char} (h : isSep c = true) : (c == ')') = false := by
  rw [beq_eq_false_iff_ne]
  rintro rfl
  exact absurd h (by decide)

theorem lpar_not_plus : (('(' : Char) == '+') = false := by decide

theorem optChar_pre {pre : List Char} {c0 : Char} (h : OptChar pre c0) :
    pre = [] ∨ ∃ c, pre = [c] ∧ (c == c0) = true := by
  have h' := h
  unfold OptChar at h'
  rcases h' with rfl | rfl
  · exact Or.inl rfl
  · exact Or.inr ⟨c0, rfl, by simp⟩

theorem optChar_of {pre : List Char} {c0 : Char}
    (h : pre = [] ∨ ∃ c, pre = [c] ∧ (c == c0) = true) : OptChar pre c0 := by
  rcases h with rfl | ⟨c, rfl, hc⟩
  · exact Or.inl rfl
  · exact Or.inr (by rw [eq_of_beq hc])

theorem phoneStage3_shape {l : List Char} (h : phoneStage3 l = true) :
    ∃ s2 g3, l = s2 ++ g3 ∧ OptSep s2 ∧ 4 ≤ g3.length ∧ g3.length ≤ 6 ∧
      g3.all isDigitC = true := by
  obtain ⟨s2, hl, hopt⟩ := dropOpt_decomp isSep l
  unfold phoneStage3 at h
  simp only [Bool.and_eq_true, decide_eq_true_eq] at h
  exact ⟨s2, dropOpt isSep l, hl, hopt, h.1.2, h.2, h.1.1⟩

theorem phoneStage2_shape {l : List Char} (h : phoneStage2 l = true) :
    ∃ s1 g2 rest, l = s1 ++ g2 ++ rest ∧ OptSep s1 ∧ DigitGroup g2 3 ∧
      phoneStage3 rest = true := by
  obtain ⟨s1, hl, hopt⟩ := dropOpt_decomp isSep l
  unfold phoneStage2 at h
  cases h3 : takeDigitsD 3 (dropOpt isSep l) with
  | none => rw [h3] at h; cases h
  | some rest =>
    rw [h3] at h
    obtain ⟨g2, hg2, hlen, hall⟩ := (takeDigitsD_eq_some 3 _ _).mp h3
    refine ⟨s1, g2, rest, ?_, hopt, ⟨hlen, hall⟩, h⟩
    rw [hl, hg2, List.append_assoc]

theorem phoneStage1_shape {l : List Char} (h : phoneStage1 l = true) :
    ∃ rpar rest, l = rpar ++ rest ∧ OptChar rpar ')' ∧ phoneStage2 rest = true := by
  obtain ⟨rpar, hl, hopt⟩ := dropOpt_decomp (· == ')') l
  exact ⟨rpar, dropOpt (· == ')') l, hl, optChar_of hopt, h⟩

theorem phoneStage0_shape {l : List Char} (h : phoneStage0 l = true) :
    ∃ plus lpar g1 rest, l = plus ++ lpar ++ g1 ++ rest ∧ OptChar plus '+' ∧
      OptChar lpar '(' ∧ DigitGroup g1 3 ∧ phoneStage1 rest = true := by
  obtain ⟨plus, hl, hplus⟩ := dropOpt_decomp (· == '+') l
  obtain ⟨lpar, hl2, hlpar⟩ := dropOpt_decomp (· == '(') (dropOpt (· == '+') l)
  unfold phoneStage0 at h
  cases h3 : takeDigitsD 3 (dropOpt (· == '(') (dropOpt (· == '+') l)) with
  | none => rw [h3] at h; cases h
  | some rest =>
    rw [h3] at h
    obtain ⟨g1, hg1, hlen, hall⟩ := (takeDigitsD_eq_some 3 _ _).mp h3
    refine ⟨plus, lpar, g1, rest, ?_, optChar_of hplus, optChar_of hlpar, ⟨hlen, hall⟩, h⟩
    rw [hl, hl2, hg1]
    simp [List.append_assoc]

theorem phoneStage3_build {s2 g3 : List Char} (hs2 : OptSep s2) (h4 : 4 ≤ g3.length)
    (h6 : g3.length ≤ 6) (hall : g3.all isDigitC = true) :
    phoneStage3 (s2 ++ g3) = true := by
  have hhead : ∀ c, g3.head? = some c → isSep c = false := by
    intro c hc
    cases g3 with
    | nil => simp at hc
    | cons a as =>
      have hca : a = c := by simpa using hc
      subst hca
      have ha : isDigitC a = true := by
        have h := hall
        simp [List.all_cons] at h
        exact h.1
      exact digit_not_sep ha
  unfold phoneStage3
  rw [dropOpt_pre isSep s2 g3 hs2 hhead]
  simp [hall, h4, h6]

theorem phoneStage2_build {s1 g2 rest : List Char} (hs1 : OptSep s1)
    (hg2 : DigitGroup g2 3) (hrest : phoneStage3 rest = true) :
    phoneStage2 (s1 ++ (g2 ++ rest)) = true := by
  have hlen : g2.length = 3 := hg2.1
  have hall : g2.all isDigitC = true := hg2.2
  have hhead : ∀ c, (g2 ++ rest).head? = some c → isSep c = false := by
    intro c hc
    cases g2 with
    | nil => simp at hlen
    | cons a as =>
      have hca : a = c := by simpa using hc
      subst hca
      have ha : isDigitC a = true := by
        have h := hall
        simp [List.all_cons] at h
        exact h.1
      exact digit_not_sep ha
  unfold phoneStage2
  rw [dropOpt_pre isSep s1 (g2 ++ rest) hs1 hhead,
    (takeDigitsD_eq_some 3 (g2 ++ rest) rest).mpr ⟨g2, rfl, hlen, hall⟩]
  exact hrest

theorem phoneStage1_build {rpar rest : List Char} (hrpar : OptChar rpar ')')
    (hhead : ∀ c, rest.head? = some c → (c == ')') = false)
    (hrest : phoneStage2 rest = true) :
    phoneStage1 (rpar ++ rest) = true := by
  unfold phoneStage1
  rw [dropOpt_pre _ rpar rest (optChar_pre hrpar) hhead]
  exact hrest

theorem phoneStage0_build {plus lpar g1 rest : List Char} (hplus : OptChar plus '+')
    (hlpar : OptChar lpar '(') (hg1 : DigitGroup g1 3) (hrest : phoneStage1 rest = true) :
    phoneStage0 (plus ++ (lpar ++ (g1 ++ rest))) = true := by
  have hg1len : g1.length = 3 := hg1.1
  have hg1all : g1.all isDigitC = true := hg1.2
  obtain ⟨d1, d2, d3, rfl⟩ := List.length_eq_three.mp hg1len
  have hd1 : isDigitC d1 = true := by
    have h := hg1all
    simp [List.all_cons] at h
    exact h.1
  have hheadLpar : ∀ c, ((d1 :: d2 :: d3 :: []) ++ rest).head? = some c →
      (c == '(') = false := by
    intro c hc
    have hcd : d1 = c := by simpa using hc
    subst hcd
    exact digit_not_lpar hd1
  have hheadPlus : ∀ c, (lpar ++ ((d1 :: d2 :: d3 :: []) ++ rest)).head? = some c →
      (c == '+') = false := by
    intro c hc
    have hlpar' := hlpar
    unfold OptChar at hlpar'
    rcases hlpar' with rfl | rfl
    · have hcd : d1 = c := by simpa using hc
      subst hcd
      exact digit_not_plus hd1
    · have hcd : '(' = c := by simpa using hc
      subst hcd
      exact lpar_not_plus
  unfold phoneStage0
  rw [dropOpt_pre _ plus _ (optChar_pre hplus) hheadPlus,
    dropOpt_pre _ lpar _ (optChar_pre hlpar) hheadLpar,
    (takeDigitsD_eq_some 3 _ rest).mpr ⟨d1 :: d2 :: d3 :: [], rfl, rfl, hg1all⟩]
  exact hrest

theorem phoneRegexMatch_iff_shape (s : String) :
    phoneRegexMatch s = true ↔ AmendedPhoneShape s := by
  constructor
  · intro h
    obtain ⟨plus, lpar, g1, rest0, hdec0, hplus, hlpar, hg1, h1⟩ := phoneStage0_shape h
    obtain ⟨rpar, rest1, hdec1, hrpar, h2⟩ := phoneStage1_shape h1
    obtain ⟨s1, g2, rest2, hdec2, hs1, hg2, h3⟩ := phoneStage2_shape h2
    obtain ⟨s2, g3, hdec3, hs2, h4, h6, hall⟩ := phoneStage3_shape h3
    refine ⟨plus, lpar, g1, rpar, s1, g2, s2, g3, ?_, hplus, hlpar, hg1, hrpar,
      hs1, hg2, hs2, h4, h6, hall⟩
    rw [hdec0, hdec1, hdec2, hdec3]
    simp [List.append_assoc]
  · rintro ⟨plus, lpar, g1, rpar, s1, g2, s2, g3, hdec, hplus, hlpar, hg1, hrpar,
      hs1, hg2, hs2, h4, h6, hall⟩
    show phoneStage0 s.data = true
    rw [hdec]
    have hassoc : plus ++ lpar ++ g1 ++ rpar ++ s1 ++ g2 ++ s2 ++ g3 =
        plus ++ (lpar ++ (g1 ++ (rpar ++ (s1 ++ (g2 ++ (s2 ++ g3)))))) := by
      simp [List.append_assoc]
    rw [hassoc]
    apply phoneStage0_build hplus hlpar hg1
    have hg2len : g2.length = 3 := hg2.1
    obtain ⟨e1, e2, e3, hg2eq⟩ := List.length_eq_three.mp hg2len
    have he1 : isDigitC e1 = true := by
      have h := hg2.2
      rw [hg2eq] at h
      simp [List.all_cons] at h
      exact h.1
    have hhead1 : ∀ c, (s1 ++ (g2 ++ (s2 ++ g3))).head? = some c → (c == ')') = false := by
      intro c hc
      have hs1' := hs1
      unfold OptSep at hs1'
      rcases hs1' with rfl | ⟨c1, hc1eq, hc1⟩
      · rw [hg2eq] at hc
        have hcd : e1 = c := by simpa using hc
        subst hcd
        exact digit_not_rpar he1
      · subst hc1eq
        have hcd : c1 = c := by simpa using hc
        subst hcd
        exact sep_not_rpar hc1
    refine phoneStage1_build hrpar hhead1 ?_
    exact phoneStage2_build hs1 hg2 (phoneStage3_build hs2 h4 h6 hall)

theorem normOpt_ne_empty : ∀ o : Option String, normOpt o ≠ some "" := by
  intro o
  match o with
  | none => simp [normOpt]
  | some s =>
    by_cases h : s = ""
    · subst h; simp [normOpt]
    · simp [normOpt, h]

theorem updateAction_snd (uid now : Nat) (st : Store) (b : Body) :
    (updateAction uid b now st).2 = st ∨
    (updateAction uid b now st).2 =
      { st with rows := st.rows.map fun r =>
          if r.userId == uid then applyActionUpdate b now r else r } := by
  unfold updateAction
  by_cases hv : (validateBody b).isEmpty = true
  · rw [if_pos hv]
    cases hf : findProfile uid st with
    | none => exact Or.inl rfl
    | some r0 =>
      cases hres : ((st.rows.filter fun r => r.userId == uid).map
          (applyActionUpdate b now)).head? with
      | none => exact Or.inr rfl
      | some r1 => exact Or.inr rfl
  · rw [if_neg hv]
    exact Or.inl rfl

theorem noEmpty_upsertMap (uid : Nat) (rows : List Row) (g : Row → Row)
    (h : ∀ r ∈ rows, r.facebookReviewUrl ≠ some "" ∧ r.yelpReviewUrl ≠ some "")
    (hg : ∀ r, (g r).facebookReviewUrl ≠ some "" ∧ (g r).yelpReviewUrl ≠ some "") :
    ∀ r ∈ rows.map (fun r => if r.userId == uid then g r else r),
      r.facebookReviewUrl ≠ some "" ∧ r.yelpReviewUrl ≠ some "" := by
  intro r hr
  rcases List.mem_map.mp hr with ⟨a, ha, rfl⟩
  by_cases hc : (a.userId == uid) = true
  · rw [if_pos hc]; exact hg a
  · rw [if_neg hc]; exact h a ha

theorem pairwise_upsertMap (uid : Nat) (rows : List Row) (g : Row → Row)
    (hg : ∀ r, (r.userId == uid) = true → (g r).userId = r.userId)
    (h : rows.Pairwise (fun a b => a.userId ≠ b.userId)) :
    (rows.map fun r => if r.userId == uid then g r else r).Pairwise
      (fun a b => a.userId ≠ b.userId) := by
  have hpres : ∀ r : Row,
      (if (r.userId == uid) = true then g r else r).userId = r.userId := by
    intro r
    by_cases hc : (r.userId == uid) = true
    · rw [if_pos hc]; exact hg r hc
    · rw [if_neg hc]
  rw [List.pairwise_map]
  exact h.imp (fun hab => by rw [hpres, hpres]; exact hab)

/-- C5: the schema decides POST outcomes field by field — an email of
`not-an-email` yields 400 with a details entry referencing email; an empty
googleReviewUrl yields 400; an empty facebookReviewUrl contributes no issue
(the optional-URL union accepts the empty string), so a body is never
rejected on that account; and every 400 leaves the store untouched. -/
theorem c5_validation_field_outcomes :
    (∀ (b : Body) (uid now : Nat) (st : Store), b.email = "not-an-email" →
      (postProfile (some uid) (some b) now st).1.status = 400 ∧
      (∃ d, (postProfile (some uid) (some b) now st).1.details = some d ∧
        "email: Please enter a valid email address" ∈ d) ∧
      (postProfile (some uid) (some b) now st).2 = st) ∧
    (∀ (b : Body) (uid now : Nat) (st : Store), b.googleReviewUrl = "" →
      (postProfile (some uid) (some b) now st).1.status = 400 ∧
      (postProfile (some uid) (some b) now st).2 = st) ∧
    optUrlIssues "facebookReviewUrl" (some "") = [] ∧
    (∀ b : Body,
      validateBody { b with facebookReviewUrl := some "" } =
        validateBody { b with facebookReviewUrl := none }) := by
  refine ⟨?_, ?_, by decide, ?_⟩
  · intro b uid now st he
    have h1 : emailIssues b.email = ["email: Please enter a valid email address"] := by
      rw [he]; decide
    have hm : "email: Please enter a valid email address" ∈ validateBody b := by
      unfold validateBody
      rw [h1]
      simp
    have hne : validateBody b ≠ [] := List.ne_nil_of_mem hm
    rw [postProfile_invalid uid now st b hne]
    exact ⟨rfl, ⟨validateBody b, rfl, hm⟩, rfl⟩
  · intro b uid now st hg
    have h1 : googleUrlIssues b.googleReviewUrl =
        ["googleReviewUrl: Google Review link is required",
         "googleReviewUrl: Please enter a valid URL"] := by
      rw [hg]; decide
    have hm : "googleReviewUrl: Google Review link is required" ∈ validateBody b := by
      unfold validateBody
      rw [h1]
      simp
    have hne : validateBody b ≠ [] := List.ne_nil_of_mem hm
    rw [postProfile_invalid uid now st b hne]
    exact ⟨rfl, rfl⟩
  · intro b
    unfold validateBody
    simp [optUrlIssues]

/-- Witness for C5 at concrete bodies. -/
theorem c5_validation_field_outcomes_witness :
    (postProfile (some 1) (some { sampleBody with email := "not-an-email" }) 5 emptyStore).1.status
      = 400 ∧
    (postProfile (some 1) (some { sampleBody with googleReviewUrl := "" }) 5 emptyStore).1.status
      = 400 := by
  refine ⟨((c5_validation_field_outcomes.1
      { sampleBody with email := "not-an-email" } 1 5 emptyStore) rfl).1,
    ((c5_validation_field_outcomes.2.1
      { sampleBody with googleReviewUrl := "" } 1 5 emptyStore) rfl).1⟩

/-- C6: for an authenticated user GET answers 404 with the not-found message
when no row references the user's id and 200 with the stored row when one
does; before any submission (the empty store) it answers 404, and after any
successful POST it answers 200 with exactly the row the POST persisted. -/
theorem c6_get_profile_contract :
    ∀ (uid : Nat) (st : Store),
      (findProfile uid st = none →
        getProfile (some uid) st =
          { status := 404, success := false, error := some "Business profile not found" }) ∧
      (∀ r, findProfile uid st = some r →
        getProfile (some uid) st = { status := 200, success := true, data := some r }) ∧
      getProfile (some uid) emptyStore =
        { status := 404, success := false, error := some "Business profile not found" } ∧
      (∀ (b : Body) (now : Nat), validateBody b = [] →
        (postProfile (some uid) (some b) now st).1.success = true ∧
        ∃ r, (postProfile (some uid) (some b) now st).1.data = some r ∧
          getProfile (some uid) (postProfile (some uid) (some b) now st).2 =
            { status := 200, success := true, data := some r }) := by
  intro uid st
  refine ⟨?_, ?_, rfl, ?_⟩
  · intro h
    simp [getProfile, h]
  · intro r h
    simp [getProfile, h]
  · intro b now hv
    cases hf : findProfile uid st with
    | none =>
      rw [postProfile_create uid now st b hv hf]
      refine ⟨rfl, insertRow st.nextId now (mkProfileData uid b now), rfl, ?_⟩
      have hfind : findProfile uid
          { rows := st.rows ++ [insertRow st.nextId now (mkProfileData uid b now)]
            nextId := st.nextId + 1 } =
          some (insertRow st.nextId now (mkProfileData uid b now)) := by
        unfold findProfile at hf ⊢
        rw [List.find?_append, hf]
        simp [insertRow, mkProfileData]
      simp [getProfile, hfind]
    | some r0 =>
      have hsome : (findProfile uid st).isSome = true := by rw [hf]; rfl
      have hh : (st.rows.filter (fun r => r.userId == uid)).head? = some r0 := by
        rw [← find?_eq_head?_filter]; exact hf
      rw [postProfile_update uid now st b hv hsome]
      refine ⟨rfl, applyUpdate (mkProfileData uid b now) r0, ?_, ?_⟩
      · show ((st.rows.filter fun r => r.userId == uid).map
            (applyUpdate (mkProfileData uid b now))).head? = _
        rw [List.head?_map, hh]
        rfl
      · have hfind : findProfile uid
            { st with rows := st.rows.map fun r =>
                if r.userId == uid then applyUpdate (mkProfileData uid b now) r else r } =
            some (applyUpdate (mkProfileData uid b now) r0) := by
          unfold findProfile
          rw [find?_map_upsert uid _ (fun r => rfl), List.head?_map, hh]
          rfl
        exact getProfile_found uid _ _ hfind

/-- Witness for C6 at a concrete user, store and body. -/
theorem c6_get_profile_contract_witness :
    getProfile (some 1) emptyStore =
      { status := 404, success := false, error := some "Business profile not found" } ∧
    ((postProfile (some 1) (some sampleBody) 5 emptyStore).1.success = true ∧
      ∃ r, (postProfile (some 1) (some sampleBody) 5 emptyStore).1.data = some r ∧
        getProfile (some 1) (postProfile (some 1) (some sampleBody) 5 emptyStore).2 =
          { status := 200, success := true, data := some r }) :=
  ⟨(c6_get_profile_contract 1 emptyStore).1 rfl,
   (c6_get_profile_contract 1 emptyStore).2.2.2 sampleBody 5 (by decide)⟩

/-- C2: a POST by a user who already has exactly one profile row answers 200
with success and the update message, and replaces every mutable field of that
row with the submitted values — id and creation time preserved, the update
time set to now, empty or omitted optional URLs stored as null (so a
previously set facebookReviewUrl reverts to null when omitted) — leaving all
other rows unchanged. -/
theorem c2_update_full_replace :
    ∀ (uid now : Nat) (st : Store) (b : Body) (r0 : Row),
      validateBody b = [] →
      st.rows.filter (fun r => r.userId == uid) = [r0] →
      (postProfile (some uid) (some b) now st).1.status = 200 ∧
      (postProfile (some uid) (some b) now st).1.success = true ∧
      (postProfile (some uid) (some b) now st).1.message =
        some "Business profile updated successfully" ∧
      (postProfile (some uid) (some b) now st).1.data = some (specUpdatedRow r0 uid b now) ∧
      (postProfile (some uid) (some b) now st).2.rows =
        st.rows.map (fun r => if r.userId == uid then specUpdatedRow r0 uid b now else r) ∧
      (b.facebookReviewUrl = none → (specUpdatedRow r0 uid b now).facebookReviewUrl = none) := by
  intro uid now st b r0 hv hfilter
  have hh : (st.rows.filter (fun r => r.userId == uid)).head? = some r0 := by
    rw [hfilter]; rfl
  have hf : findProfile uid st = some r0 := by
    unfold findProfile; rw [find?_eq_head?_filter]; exact hh
  have hsome : (findProfile uid st).isSome = true := by rw [hf]; rfl
  have hspec : applyUpdate (mkProfileData uid b now) r0 = specUpdatedRow r0 uid b now := rfl
  rw [postProfile_update uid now st b hv hsome]
  refine ⟨rfl, rfl, rfl, ?_, ?_, fun h => by simp [specUpdatedRow, h, normOpt]⟩
  · show ((st.rows.filter fun r => r.userId == uid).map
        (applyUpdate (mkProfileData uid b now))).head? = _
    rw [List.head?_map, hh]
    exact congrArg some hspec
  · show st.rows.map (fun r =>
        if r.userId == uid then applyUpdate (mkProfileData uid b now) r else r) = _
    apply List.map_congr_left
    intro r hr
    by_cases h : (r.userId == uid) = true
    · rw [if_pos h, if_pos h]
      have hmem : r ∈ st.rows.filter (fun r => r.userId == uid) :=
        List.mem_filter.mpr ⟨hr, h⟩
      rw [hfilter] at hmem
      have hr0 : r = r0 := by simpa using hmem
      rw [hr0]
      exact hspec
    · rw [if_neg h, if_neg h]

/-- Witness for C2: a second submission after a first one, with the facebook
URL omitted the second time. -/
theorem c2_update_full_replace_witness :
    (postProfile (some 1) (some sampleBody2) 9
        (postProfile (some 1) (some sampleBody) 4 emptyStore).2).1.status = 200 ∧
    (postProfile (some 1) (some sampleBody2) 9
        (postProfile (some 1) (some sampleBody) 4 emptyStore).2).1.data =
      some (specUpdatedRow (insertRow 1 4 (mkProfileData 1 sampleBody 4)) 1 sampleBody2 9) := by
  have h := c2_update_full_replace 1 9 (postProfile (some 1) (some sampleBody) 4 emptyStore).2
    sampleBody2 (insertRow 1 4 (mkProfileData 1 sampleBody 4)) (by decide) (by decide)
  exact ⟨h.1, h.2.2.2.1⟩

/-- C3 counterexample: the per-user uniqueness invariant does not hold in
every state reachable by the profile-writing operations — running the
createBusinessProfile action twice in sequence for user 1 (the action
inserts unconditionally and neither the code nor the schema checks
uniqueness of user_id) yields a store holding two rows for user 1. -/
theorem c3_per_user_uniqueness_counterexample :
    ((createAction 1 sampleBody 5 (createAction 1 sampleBody 4 emptyStore).2).2.rows.filter
        (fun r => r.userId == 1)).length = 2 ∧
    ¬ UniquePerUser (createAction 1 sampleBody 5 (createAction 1 sampleBody 4 emptyStore).2).2 := by
  constructor
  · decide
  · unfold UniquePerUser
    decide

/-- C3 amended: the POST upsert handler and the updateBusinessProfile action
do preserve the at-most-one-profile-per-user invariant, and the upsert
branches solely on whether a row referencing the caller's user id exists
(update/200 exactly when one does, create/201 exactly when none does); the
createBusinessProfile action, however, inserts unconditionally, so the
invariant is not maintained by all profile-writing operations (see the
counterexample). -/
theorem c3_upsert_branching_and_uniqueness_amended :
    ∀ (uid now : Nat) (st : Store) (b : Body),
      (UniquePerUser st → UniquePerUser (postProfile (some uid) (some b) now st).2) ∧
      (UniquePerUser st → UniquePerUser (updateAction uid b now st).2) ∧
      (validateBody b = [] →
        (((postProfile (some uid) (some b) now st).1.status = 200 ↔
            (findProfile uid st).isSome = true) ∧
         ((postProfile (some uid) (some b) now st).1.status = 201 ↔
            findProfile uid st = none))) := by
  intro uid now st b
  refine ⟨?_, ?_, ?_⟩
  · intro hu
    by_cases hv : validateBody b = []
    · cases hf : findProfile uid st with
      | none =>
        rw [postProfile_create uid now st b hv hf]
        show (st.rows ++ [insertRow st.nextId now (mkProfileData uid b now)]).Pairwise _
        rw [List.pairwise_append]
        refine ⟨hu, by simp, ?_⟩
        intro a ha a' ha'
        have ha'' : a' = insertRow st.nextId now (mkProfileData uid b now) := by
          simpa using ha'
        subst ha''
        have hnot : ¬ (a.userId == uid) = true := List.find?_eq_none.mp hf a ha
        have hne : a.userId ≠ uid := by simpa using hnot
        exact hne
      | some r0 =>
        have hsome : (findProfile uid st).isSome = true := by rw [hf]; rfl
        rw [postProfile_update uid now st b hv hsome]
        show (st.rows.map _).Pairwise _
        refine pairwise_upsertMap uid st.rows _ ?_ hu
        intro r hc
        have : r.userId = uid := by simpa using hc
        exact this.symm
    · rw [postProfile_invalid uid now st b hv]
      exact hu
  · intro hu
    rcases updateAction_snd uid now st b with h | h
    · rw [h]; exact hu
    · rw [h]
      show (st.rows.map _).Pairwise _
      exact pairwise_upsertMap uid st.rows _ (fun r _ => rfl) hu
  · intro hv
    cases hf : findProfile uid st with
    | none =>
      rw [postProfile_create uid now st b hv hf]
      exact ⟨⟨fun h => by simp at h, fun h => by simp at h⟩, ⟨fun _ => rfl, fun _ => rfl⟩⟩
    | some r0 =>
      have hsome : (findProfile uid st).isSome = true := by rw [hf]; rfl
      rw [postProfile_update uid now st b hv hsome]
      exact ⟨⟨fun _ => rfl, fun _ => rfl⟩, ⟨fun h => by simp at h, fun h => by simp at h⟩⟩

/-- Witness for the amended C3 at a concrete input. -/
theorem c3_upsert_branching_and_uniqueness_amended_witness :
    UniquePerUser (postProfile (some 1) (some sampleBody) 5 emptyStore).2 ∧
    ((postProfile (some 1) (some sampleBody) 5 emptyStore).1.status = 201 ↔
      findProfile 1 emptyStore = none) :=
  ⟨(c3_upsert_branching_and_uniqueness_amended 1 5 emptyStore sampleBody).1
      (by simp [UniquePerUser, emptyStore]),
   ((c3_upsert_branching_and_uniqueness_amended 1 5 emptyStore sampleBody).2.2 (by decide)).2⟩

/-- C8: submitting the identical valid payload twice in sequence (starting
from a store with no row for the caller, so the second call takes the update
branch) answers 200 the second time and leaves every stored row's content
as after the first call, except that the matching row's updated timestamp
becomes the second call's time. -/
theorem c8_resubmission_idempotent :
    ∀ (uid t1 t2 : Nat) (st : Store) (b : Body),
      validateBody b = [] →
      findProfile uid st = none →
      (postProfile (some uid) (some b) t2 (postProfile (some uid) (some b) t1 st).2).1.status
        = 200 ∧
      (postProfile (some uid) (some b) t2 (postProfile (some uid) (some b) t1 st).2).2.rows =
        (postProfile (some uid) (some b) t1 st).2.rows.map
          (fun r => if r.userId == uid then { r with updatedAt := t2 } else r) := by
  intro uid t1 t2 st b hv hf
  rw [postProfile_create uid t1 st b hv hf]
  have hf1 : findProfile uid
      { rows := st.rows ++ [insertRow st.nextId t1 (mkProfileData uid b t1)]
        nextId := st.nextId + 1 } =
      some (insertRow st.nextId t1 (mkProfileData uid b t1)) := by
    unfold findProfile at hf ⊢
    rw [List.find?_append, hf]
    simp [insertRow, mkProfileData]
  have hsome : (findProfile uid
      { rows := st.rows ++ [insertRow st.nextId t1 (mkProfileData uid b t1)]
        nextId := st.nextId + 1 }).isSome = true := by
    rw [hf1]; rfl
  rw [postProfile_update uid t2 _ b hv hsome]
  refine ⟨rfl, ?_⟩
  show (st.rows ++ [insertRow st.nextId t1 (mkProfileData uid b t1)]).map _ = _
  apply List.map_congr_left
  intro r hr
  rcases List.mem_append.mp hr with hr | hr
  · have hnot : ¬ (r.userId == uid) = true := List.find?_eq_none.mp hf r hr
    rw [if_neg hnot, if_neg hnot]
  · have hr' : r = insertRow st.nextId t1 (mkProfileData uid b t1) := by simpa using hr
    subst hr'
    have hc : ((insertRow st.nextId t1 (mkProfileData uid b t1)).userId == uid) = true := by
      simp [insertRow, mkProfileData]
    rw [if_pos hc, if_pos hc]
    rfl

/-- Witness for C8 at a concrete user, times and body. -/
theorem c8_resubmission_idempotent_witness :
    (postProfile (some 1) (some sampleBody) 7
        (postProfile (some 1) (some sampleBody) 4 emptyStore).2).1.status = 200 :=
  (c8_resubmission_idempotent 1 4 7 emptyStore sampleBody (by decide) rfl).1

/-- C10: every profile write normalizes an empty-string optional review URL
to null — `x || null` sends the empty string and an absent field to null and
never produces an empty string — so across the POST upsert and both server
actions, a store in which no row holds an empty string in those two columns
stays that way. -/
theorem c10_empty_optional_urls_normalized :
    normOpt (some "") = none ∧
    normOpt none = none ∧
    (∀ s : String, normOpt (some s) ≠ some "") ∧
    (∀ (uid now : Nat) (b : Body),
      (mkProfileData uid { b with facebookReviewUrl := some "" } now).facebookReviewUrl
        = none ∧
      (mkProfileData uid { b with yelpReviewUrl := some "" } now).yelpReviewUrl = none) ∧
    (∀ (user : Option Nat) (body? : Option Body) (uid now : Nat) (st : Store) (b : Body),
      NoEmptyOptionalUrls st →
      NoEmptyOptionalUrls (postProfile user body? now st).2 ∧
      NoEmptyOptionalUrls (createAction uid b now st).2 ∧
      NoEmptyOptionalUrls (updateAction uid b now st).2) := by
  refine ⟨by decide, rfl, fun s => normOpt_ne_empty (some s),
    fun uid now b => ⟨by simp [mkProfileData, normOpt], by simp [mkProfileData, normOpt]⟩,
    ?_⟩
  intro user body? uid now st b h
  refine ⟨?_, ?_, ?_⟩
  · cases user with
    | none => exact h
    | some u =>
      cases body? with
      | none => exact h
      | some b' =>
        by_cases hv : validateBody b' = []
        · cases hf : findProfile u st with
          | none =>
            rw [postProfile_create u now st b' hv hf]
            intro r hr
            rcases List.mem_append.mp hr with hr | hr
            · exact h r hr
            · have hr' : r = insertRow st.nextId now (mkProfileData u b' now) := by
                simpa using hr
              subst hr'
              exact ⟨normOpt_ne_empty _, normOpt_ne_empty _⟩
          | some r0 =>
            have hsome : (findProfile u st).isSome = true := by rw [hf]; rfl
            rw [postProfile_update u now st b' hv hsome]
            exact noEmpty_upsertMap u st.rows _ h
              (fun r => ⟨normOpt_ne_empty _, normOpt_ne_empty _⟩)
        · rw [postProfile_invalid u now st b' hv]
          exact h
  · unfold createAction
    by_cases hv : (validateBody b).isEmpty = true
    · rw [if_pos hv]
      intro r hr
      rcases List.mem_append.mp hr with hr | hr
      · exact h r hr
      · have hr' : r = actionInsertRow st.nextId now uid b := by simpa using hr
        subst hr'
        exact ⟨normOpt_ne_empty _, normOpt_ne_empty _⟩
    · rw [if_neg hv]
      exact h
  · rcases updateAction_snd uid now st b with heq | heq
    · rw [heq]; exact h
    · rw [heq]
      exact noEmpty_upsertMap uid st.rows _ h
        (fun r => ⟨normOpt_ne_empty _, normOpt_ne_empty _⟩)

/-- C9 counterexample: validation accepts phone strings outside the shape
the claim describes — `(5551234567` (an unmatched opening parenthesis, not
a parenthesized area code) and `555<TAB>123<TAB>4567` (a tab separator,
which is neither dash, space nor dot) both pass the phone checks while
falling outside the described shape. -/
theorem c9_phone_shape_counterexample :
    phoneIssues "(5551234567" = [] ∧
    claimPhoneShape "(5551234567" = false ∧
    phoneIssues "555\t123\t4567" = [] ∧
    claimPhoneShape "555\t123\t4567" = false :=
  ⟨by decide, by decide, by decide, by decide⟩

/-- C9 amended: a phone string passes validation exactly when it matches the
shape the source regex actually decides: an optional leading plus, an
optional opening parenthesis, three digits, an optional closing parenthesis
(each parenthesis independently optional, so unmatched parentheses are
accepted), an optional separator, three digits, an optional separator, and
four to six digits — a separator being a dash, a dot, or any JavaScript
whitespace character.  Non-emptiness is subsumed by the shape. -/
theorem c9_phone_validation_iff_shape :
    ∀ s : String, phoneIssues s = [] ↔ AmendedPhoneShape s := by
  intro s
  constructor
  · intro h
    apply (phoneRegexMatch_iff_shape s).mp
    cases hx : phoneRegexMatch s with
    | true => rfl
    | false =>
      unfold phoneIssues at h
      rw [hx] at h
      simp at h
  · intro hshape
    have hm := (phoneRegexMatch_iff_shape s).mpr hshape
    have hpos : 1 ≤ s.length := by
      obtain ⟨plus, lpar, g1, rpar, s1, g2, s2, g3, hdec, hplus, hlpar, hg1, -⟩ := hshape
      have h3 : g1.length = 3 := hg1.1
      have hlen : s.length = s.data.length := rfl
      rw [hlen, hdec]
      simp [List.length_append]
      omega
    unfold phoneIssues
    rw [hm]
    simp
    omega

/-- Witness for C10 at a concrete write on the empty store. -/
theorem c10_empty_optional_urls_normalized_witness :
    NoEmptyOptionalUrls (postProfile (some 1) (some sampleBody) 5 emptyStore).2 :=
  ((c10_empty_optional_urls_normalized.2.2.2.2 (some 1) (some sampleBody) 1 5 emptyStore
      sampleBody (by simp [NoEmptyOptionalUrls, emptyStore])).1)

end Revvio
